import Mathlib

/-!
Verification development for the Hiver AI SupportBot retrieval-and-confidence
engine.  The retrieval core (VectorIndex, Ranker, ConfidenceEstimator,
ContextAssembler, RAGOrchestrator) lives in the backend `server.py`, which is
not among the staged files; those components are modelled from the
specification's own contracts.  The Part C query form and the Navigation bar
are embedded directly from the staged React sources.
-/

/-- Modelled from the spec: a KB article as in section 3 (the embedding vector
is held separately by the VectorIndex cache, see `VectorIndex`). -/
structure Article where
  id : Nat
  title : String
  category : String
  content : String
  deriving DecidableEq

/-- Modelled from the spec: a ScoredCandidate of section 3 — `article_id`,
cosine `similarity`, and 1-based `rank` after ordering. -/
structure ScoredCandidate where
  article_id : Nat
  similarity : ℚ
  rank : Nat
  deriving DecidableEq

/-- Modelled from the spec: a RetrievalResult of section 3 — the ordered top-k
candidates plus the derived retrieval confidence. -/
structure RetrievalResult where
  candidates : List ScoredCandidate
  retrieval_confidence : ℚ
  deriving DecidableEq

/-- Modelled from the spec: an AnswerResult of section 3 — answer text,
confidence in [0,1], and the retrieval sources. -/
structure AnswerResult where
  answer_text : String
  confidence : ℚ
  sources : List ScoredCandidate
  deriving DecidableEq

/-- Modelled from the spec (section 4.2): the Ranker's ordering on
position-annotated scan entries `(scanPosition, (articleId, similarity))`:
similarity descending, ties broken by the original scan position. -/
def candOrder (x y : Nat × Nat × ℚ) : Prop :=
  y.2.2 < x.2.2 ∨ (x.2.2 = y.2.2 ∧ x.1 ≤ y.1)

instance : DecidableRel candOrder := fun x y => by
  unfold candOrder
  infer_instance

instance : IsTotal (Nat × Nat × ℚ) candOrder := by
  constructor
  intro x y
  rcases lt_trichotomy x.2.2 y.2.2 with h | h | h
  · exact Or.inr (Or.inl h)
  · rcases Nat.le_total x.1 y.1 with h1 | h1
    · exact Or.inl (Or.inr ⟨h, h1⟩)
    · exact Or.inr (Or.inr ⟨h.symm, h1⟩)
  · exact Or.inl (Or.inl h)

instance : IsTrans (Nat × Nat × ℚ) candOrder := by
  constructor
  intro x y z hxy hyz
  rcases hxy with h1 | ⟨e1, p1⟩ <;> rcases hyz with h2 | ⟨e2, p2⟩
  · exact Or.inl (lt_trans h2 h1)
  · exact Or.inl (by rw [← e2]; exact h1)
  · exact Or.inl (by rw [e1]; exact h2)
  · exact Or.inr ⟨e1.trans e2, le_trans p1 p2⟩

/-- Modelled from the spec (section 4.2): the full stable ordering of a scan
result — a stable sort of the position-annotated candidates by `candOrder`. -/
def rankAll (scan : List (Nat × ℚ)) : List (Nat × Nat × ℚ) :=
  List.insertionSort candOrder scan.enum

/-- Modelled from the spec (section 4.2): `rank(scanResult, k, floor)` — stable
sort by similarity descending, select the top `min k (length scan)` and assign
1-based ranks.  In the default soft-floor mode the relevance floor excludes
nobody; the optional hard-floor mode filters below-floor candidates first. -/
def rank (scan : List (Nat × ℚ)) (k : Nat) (relevanceFloor : ℚ) (hardFloor : Bool) :
    List ScoredCandidate :=
  let base := if hardFloor then (rankAll scan).filter (fun p => decide (relevanceFloor ≤ p.2.2))
              else rankAll scan
  (base.take k).enum.map (fun p => ⟨p.2.2.1, p.2.2.2, p.1 + 1⟩)

/-- Modelled from the spec (section 4.3): `retrievalConfidence` — the top
candidate's similarity clamped to [0,1], and 0 for an empty result. -/
def retrievalConfidence : List ScoredCandidate → ℚ
  | [] => 0
  | c :: _ => max 0 (min 1 c.similarity)

/-- Modelled from the spec (section 4.3): `answerConfidence` — on generation
failure the confidence degrades to the floor value 0 regardless of retrieval
strength; on success it is the direct pass-through of retrieval confidence. -/
def answerConfidence (retrievalConf : ℚ) (generationSucceeded : Bool) : ℚ :=
  if generationSucceeded then retrievalConf else 0

/-- Modelled from the spec (sections 4.4 and 7): whether the generative
provider's outcome counts as a failure — provider failure (`none`) or
malformed/empty output. -/
def generationFailed : Option String → Bool
  | none => true
  | some s => s == ""

/-- Modelled from the spec (section 4.4): `synthesize` — on generation failure
it returns empty answer text, confidence 0, and the retrieval sources; on
success the generated text with the passed-through confidence. -/
def synthesize (retrieval : RetrievalResult) (genOutput : Option String) : AnswerResult :=
  if generationFailed genOutput then
    ⟨"", answerConfidence retrieval.retrieval_confidence false, retrieval.candidates⟩
  else
    ⟨genOutput.getD "", answerConfidence retrieval.retrieval_confidence true,
      retrieval.candidates⟩

/-- Modelled from the spec (section 4.1): the similarity scan over the stored
vectors, parametric in the similarity measure. -/
def similarityScanQ (sim : List ℚ → List ℚ → ℚ) (qv : List ℚ)
    (index : List (Nat × List ℚ)) : List (Nat × ℚ) :=
  index.map (fun e => (e.1, sim qv e.2))

/-- Modelled from the spec (section 2): the default top-k configuration
constant. -/
def defaultK : Nat := 3

/-- Modelled from the spec (sections 4.2 and 4.3): the retrieval half of the
query pipeline — scan, rank in the default floor configuration, and derive the
retrieval confidence. -/
def queryRetrieval (sim : List ℚ → List ℚ → ℚ) (qv : List ℚ)
    (index : List (Nat × List ℚ)) (k : Nat) : RetrievalResult :=
  let cands := rank (similarityScanQ sim qv index) k 0 false
  ⟨cands, retrievalConfidence cands⟩

/-- Modelled from the spec (section 7): the error taxonomy visible to the
orchestrator's retrieval stage. -/
inductive RagError
  | EmbeddingUnavailable
  deriving DecidableEq

/-- Modelled from the spec (section 4.5): the orchestrator's query pipeline up
to retrieval — an unavailable embedding provider is fatal; otherwise the
retrieval result is produced, an empty knowledge base included. -/
def ragQuery (sim : List ℚ → List ℚ → ℚ) (embedOut : Option (List ℚ))
    (index : List (Nat × List ℚ)) (k : Nat) : Except RagError RetrievalResult :=
  match embedOut with
  | none => Except.error RagError.EmbeddingUnavailable
  | some qv => Except.ok (queryRetrieval sim qv index k)

/-- Modelled from the spec (section 4.1): a cached embedding entry, keyed by
content hash and embedding model version.  The content hash is modelled by the
content itself (the spec assumes the hash identifies the content). -/
structure CacheEntry where
  contentHash : String
  modelVersion : Nat
  vector : List ℚ
  deriving DecidableEq

/-- Modelled from the spec (section 4.1): the VectorIndex — the per-article
embedding cache plus a count of calls made to the embedding provider (used to
observe whether an upsert re-embeds). -/
structure VectorIndex where
  entries : List (Nat × CacheEntry)
  embedCalls : Nat
  deriving DecidableEq

/-- Look up the cache entry stored for an article id. -/
def lookupEntry : List (Nat × CacheEntry) → Nat → Option CacheEntry
  | [], _ => none
  | e :: rest, i => if e.1 = i then some e.2 else lookupEntry rest i

/-- Replace (or append) the cache entry stored for an article id. -/
def setEntry : List (Nat × CacheEntry) → Nat → CacheEntry → List (Nat × CacheEntry)
  | [], i, ent => [(i, ent)]
  | e :: rest, i, ent => if e.1 = i then (i, ent) :: rest else e :: setEntry rest i ent

/-- Modelled from the spec (section 4.1): `upsert(article)` — a cache hit on
`(id, content-hash, model-version)` skips the embedding call entirely;
otherwise the embedding is recomputed, stored, and the provider call counted. -/
def upsert (embed : String → List ℚ) (modelVersion : Nat) (idx : VectorIndex)
    (a : Article) : VectorIndex :=
  match lookupEntry idx.entries a.id with
  | some ent =>
      if ent.contentHash = a.content ∧ ent.modelVersion = modelVersion then idx
      else ⟨setEntry idx.entries a.id ⟨a.content, modelVersion, embed a.content⟩,
            idx.embedCalls + 1⟩
  | none =>
      ⟨idx.entries ++ [(a.id, ⟨a.content, modelVersion, embed a.content⟩)],
        idx.embedCalls + 1⟩

/-- Dot product of two embedding vectors (truncating to the shorter). -/
def dotL : List ℝ → List ℝ → ℝ
  | [], _ => 0
  | _ :: _, [] => 0
  | x :: xs, y :: ys => x * y + dotL xs ys

/-- Modelled from the spec (section 4.1): cosine similarity between the query
vector and a stored vector; a stored vector of zero magnitude is assigned −1
rather than dividing by its zero magnitude. -/
noncomputable def cosineSim (q v : List ℝ) : ℝ :=
  if dotL v v = 0 then -1
  else dotL q v / (Real.sqrt (dotL q q) * Real.sqrt (dotL v v))

/-- Modelled from the spec (section 4.1): `similarityScan(queryVector)` — the
cosine similarity of the query against every stored `(id, vector)` pair. -/
noncomputable def similarityScan (qv : List ℝ) (index : List (Nat × List ℝ)) :
    List (Nat × ℝ) :=
  index.map (fun e => (e.1, cosineSim qv e.2))

/-- Embedded from src/frontend/src/components/PartC.js: the toast notifications
raised by the Part C page. -/
inductive Toast
  | success : String → Toast
  | error : String → Toast
  deriving DecidableEq

/-- Embedded from src/frontend/src/components/PartC.js (`queryKB`): a blank
query (the JS guard `!query.trim()`, i.e. every character is whitespace)
short-circuits with an error toast before any HTTP request; otherwise
one POST is sent and the displayed result is replaced only on success.  The
returned triple is (requests sent, displayed result afterwards, toasts). -/
def queryKB {α : Type} (send : String → Except String α) (query : String)
    (prevResult : Option α) : List String × Option α × List Toast :=
  if query.data.all Char.isWhitespace then ([], prevResult, [Toast.error "Please enter a query"])
  else
    match send query with
    | Except.ok data => ([query], some data, [Toast.success "Query completed"])
    | Except.error e => ([query], prevResult, [Toast.error e])

/-- Embedded from src/unnamed/part_000 (`Navigation`): one rendered nav link. -/
structure NavLink where
  path : String
  label : String
  className : String
  deriving DecidableEq

/-- Embedded from src/unnamed/part_000 (`Navigation`): the fixed link list. -/
def navLinks : List (String × String) :=
  [("/", "Home"), ("/part-a", "Part A"), ("/part-b", "Part B"), ("/part-c", "Part C")]

/-- Embedded from src/unnamed/part_000 (`Navigation`): the links as rendered
for a given `location.pathname`, with the template-string class
`nav-link ${location.pathname === link.path ? 'active' : ''}`. -/
def renderNavLinks (pathname : String) : List NavLink :=
  navLinks.map (fun l => ⟨l.1, l.2, "nav-link " ++ (if pathname = l.1 then "active" else "")⟩)

theorem dotL_self_nonneg : ∀ v : List ℝ, 0 ≤ dotL v v
  | [] => le_refl 0
  | x :: xs => by
      have h := dotL_self_nonneg xs
      simp only [dotL]
      nlinarith [mul_self_nonneg x]

theorem two_mul_le_of_sq_le_mul (c A B : ℝ) (hA : 0 ≤ A) (hB : 0 ≤ B) (h : c^2 ≤ A*B) :
    2*c ≤ A + B := by
  nlinarith [sq_nonneg (A - B), sq_nonneg (A + B - 2*c)]

theorem dotL_sq_le_mul : ∀ a b : List ℝ, (dotL a b)^2 ≤ dotL a a * dotL b b
  | [], b => by simp [dotL]
  | _ :: _, [] => by simp [dotL]
  | x :: xs, y :: ys => by
      have ih := dotL_sq_le_mul xs ys
      have ha := dotL_self_nonneg xs
      have hb := dotL_self_nonneg ys
      have key : 2*(x*y*dotL xs ys) ≤ x^2*(dotL ys ys) + y^2*(dotL xs xs) := by
        apply two_mul_le_of_sq_le_mul
        · positivity
        · positivity
        · have hsw : (x*y*dotL xs ys)^2 = (x^2*y^2)*(dotL xs ys)^2 := by ring
          rw [hsw]
          calc (x^2*y^2)*(dotL xs ys)^2 ≤ (x^2*y^2)*(dotL xs xs * dotL ys ys) := by
                apply mul_le_mul_of_nonneg_left ih; positivity
            _ = x^2*(dotL ys ys) * (y^2*(dotL xs xs)) := by ring
      simp only [dotL]
      nlinarith [ih, key, ha, hb]

theorem dotL_eq_zero_of_self_eq_zero : ∀ (q w : List ℝ), dotL q q = 0 → dotL q w = 0
  | [], w, _ => by cases w <;> simp [dotL]
  | _ :: _, [], _ => by simp [dotL]
  | x :: xs, y :: ys, h => by
      simp only [dotL] at h ⊢
      have h1 : 0 ≤ x * x := mul_self_nonneg x
      have h2 : 0 ≤ dotL xs xs := dotL_self_nonneg xs
      have hx : x = 0 := by nlinarith
      have hxs : dotL xs xs = 0 := by nlinarith
      rw [hx, dotL_eq_zero_of_self_eq_zero xs ys hxs]
      ring

theorem abs_dotL_le (a b : List ℝ) :
    |dotL a b| ≤ Real.sqrt (dotL a a) * Real.sqrt (dotL b b) := by
  have h1 : |dotL a b| = Real.sqrt ((dotL a b)^2) := (Real.sqrt_sq_eq_abs _).symm
  rw [h1, ← Real.sqrt_mul (dotL_self_nonneg a)]
  exact Real.sqrt_le_sqrt (dotL_sq_le_mul a b)

theorem neg_one_le_cosineSim (q v : List ℝ) : -1 ≤ cosineSim q v := by
  unfold cosineSim
  by_cases hv : dotL v v = 0
  · simp [hv]
  · rw [if_neg hv]
    by_cases hq : dotL q q = 0
    · rw [dotL_eq_zero_of_self_eq_zero q v hq, zero_div]
      norm_num
    · have hqpos : 0 < dotL q q := lt_of_le_of_ne (dotL_self_nonneg q) (Ne.symm hq)
      have hvpos : 0 < dotL v v := lt_of_le_of_ne (dotL_self_nonneg v) (Ne.symm hv)
      have hD : 0 < Real.sqrt (dotL q q) * Real.sqrt (dotL v v) :=
        mul_pos (Real.sqrt_pos.mpr hqpos) (Real.sqrt_pos.mpr hvpos)
      rw [le_div_iff₀ hD]
      have habs := (abs_le.mp (abs_dotL_le q v)).1
      linarith

theorem cosineSim_le_one (q v : List ℝ) (hq : dotL q q ≠ 0) : cosineSim q v ≤ 1 := by
  unfold cosineSim
  by_cases hv : dotL v v = 0
  · simp [hv]
  · rw [if_neg hv]
    have hqpos : 0 < dotL q q := lt_of_le_of_ne (dotL_self_nonneg q) (Ne.symm hq)
    have hvpos : 0 < dotL v v := lt_of_le_of_ne (dotL_self_nonneg v) (Ne.symm hv)
    have hD : 0 < Real.sqrt (dotL q q) * Real.sqrt (dotL v v) :=
      mul_pos (Real.sqrt_pos.mpr hqpos) (Real.sqrt_pos.mpr hvpos)
    rw [div_le_one hD]
    exact (abs_le.mp (abs_dotL_le q v)).2

theorem cosineSim_self (q : List ℝ) (hq : dotL q q ≠ 0) : cosineSim q q = 1 := by
  unfold cosineSim
  rw [if_neg hq, Real.mul_self_sqrt (dotL_self_nonneg q), div_self hq]

theorem cosineSim_of_zero_magnitude (q v : List ℝ) (hz : dotL v v = 0) :
    cosineSim q v = -1 := by
  unfold cosineSim
  rw [if_pos hz]

/-- C7: for every stored vector of zero magnitude, the similarity scan assigns
it similarity −1 — a defined value that is a global lower bound of cosine
similarity, so it always ranks last — and the cosine never divides by a zero
magnitude (the zero-magnitude guard returns −1 before any division). -/
theorem similarityScan_zero_magnitude (qv : List ℝ) (index : List (Nat × List ℝ))
    (i : Nat) (v : List ℝ) (hmem : (i, v) ∈ index) (hz : dotL v v = 0) :
    cosineSim qv v = -1
    ∧ (i, (-1 : ℝ)) ∈ similarityScan qv index
    ∧ ∀ e ∈ similarityScan qv index, (-1 : ℝ) ≤ e.2 := by
  refine ⟨cosineSim_of_zero_magnitude qv v hz, ?_, ?_⟩
  · unfold similarityScan
    exact List.mem_map.mpr ⟨(i, v), hmem, by simp [cosineSim_of_zero_magnitude qv v hz]⟩
  · intro e he
    unfold similarityScan at he
    rcases List.mem_map.mp he with ⟨w, hw, rfl⟩
    exact neg_one_le_cosineSim qv w.2

theorem similarityScan_zero_magnitude_witness :
    cosineSim [(1:ℝ)] [(0:ℝ)] = -1
    ∧ ((0 : Nat), (-1 : ℝ)) ∈ similarityScan [(1:ℝ)] [((0:Nat), [(0:ℝ)]), ((1:Nat), [(1:ℝ)])]
    ∧ ∀ e ∈ similarityScan [(1:ℝ)] [((0:Nat), [(0:ℝ)]), ((1:Nat), [(1:ℝ)])], (-1 : ℝ) ≤ e.2 :=
  similarityScan_zero_magnitude [1] [((0:Nat), [0]), ((1:Nat), [1])] 0 [0]
    (List.mem_cons_self _ _) (by norm_num [dotL])

/-- C8: a query embedding identical to a stored article's embedding has
similarity exactly 1 there, and 1 is the maximum similarity over the whole
index. -/
theorem self_similarity_is_max (q : List ℝ) (index : List (Nat × List ℝ)) (i : Nat)
    (hmem : (i, q) ∈ index) (hq : dotL q q ≠ 0) :
    cosineSim q q = 1
    ∧ (i, (1 : ℝ)) ∈ similarityScan q index
    ∧ ∀ e ∈ similarityScan q index, e.2 ≤ cosineSim q q := by
  refine ⟨cosineSim_self q hq, ?_, ?_⟩
  · unfold similarityScan
    exact List.mem_map.mpr ⟨(i, q), hmem, by simp [cosineSim_self q hq]⟩
  · intro e he
    unfold similarityScan at he
    rcases List.mem_map.mp he with ⟨w, hw, rfl⟩
    rw [cosineSim_self q hq]
    exact cosineSim_le_one q w.2 hq

theorem self_similarity_is_max_witness :
    cosineSim [(2:ℝ)] [(2:ℝ)] = 1
    ∧ ((0 : Nat), (1 : ℝ)) ∈ similarityScan [(2:ℝ)] [((0:Nat), [(2:ℝ)]), ((1:Nat), [(-1:ℝ)])]
    ∧ ∀ e ∈ similarityScan [(2:ℝ)] [((0:Nat), [(2:ℝ)]), ((1:Nat), [(-1:ℝ)])],
        e.2 ≤ cosineSim [(2:ℝ)] [(2:ℝ)] :=
  self_similarity_is_max [2] [((0:Nat), [2]), ((1:Nat), [-1])] 0
    (List.mem_cons_self _ _) (by norm_num [dotL])

/-- C2: whenever the generation step fails (provider failure or
malformed/empty output), `synthesize` returns an AnswerResult with empty
answer text, confidence 0 — regardless of retrieval strength, since
`answerConfidence` is 0 on any failed generation — and sources taken from the
retrieval result. -/
theorem synthesize_generation_failure (retrieval : RetrievalResult)
    (genOutput : Option String) (hfail : generationFailed genOutput = true) :
    (synthesize retrieval genOutput).answer_text = ""
    ∧ (synthesize retrieval genOutput).confidence = 0
    ∧ (synthesize retrieval genOutput).sources = retrieval.candidates
    ∧ ∀ rc : ℚ, answerConfidence rc false = 0 := by
  refine ⟨?_, ?_, ?_, fun rc => rfl⟩ <;> simp [synthesize, hfail, answerConfidence]

theorem synthesize_generation_failure_witness :
    (synthesize ⟨[⟨1, 19/20, 1⟩], 19/20⟩ none).answer_text = ""
    ∧ (synthesize ⟨[⟨1, 19/20, 1⟩], 19/20⟩ none).confidence = 0
    ∧ (synthesize ⟨[⟨1, 19/20, 1⟩], 19/20⟩ none).sources = [⟨1, 19/20, 1⟩]
    ∧ ∀ rc : ℚ, answerConfidence rc false = 0 :=
  synthesize_generation_failure ⟨[⟨1, 19/20, 1⟩], 19/20⟩ none rfl

/-- C3: `retrievalConfidence` of a non-empty candidate list is the top-ranked
candidate's similarity clamped into [0,1]; of an empty list it is 0; and it
always lies in [0,1], negative top similarities included. -/
theorem retrievalConfidence_clamped :
    retrievalConfidence [] = 0
    ∧ (∀ c cs, retrievalConfidence (c :: cs) = max 0 (min 1 c.similarity))
    ∧ (∀ cs, 0 ≤ retrievalConfidence cs ∧ retrievalConfidence cs ≤ 1) := by
  refine ⟨rfl, fun c cs => rfl, fun cs => ?_⟩
  cases cs with
  | nil => norm_num [retrievalConfidence]
  | cons c cs =>
      exact ⟨le_max_left 0 _, max_le (by norm_num) (min_le_left 1 _)⟩

/-- C4: a query against an index with zero articles yields a RetrievalResult
with zero candidates and retrieval confidence 0 — an `Except.ok` outcome,
never an error (given the query embedding itself was produced). -/
theorem ragQuery_empty_index (sim : List ℚ → List ℚ → ℚ) (qv : List ℚ) (k : Nat) :
    ragQuery sim (some qv) [] k = Except.ok ⟨[], 0⟩ := by
  simp [ragQuery, queryRetrieval, similarityScanQ, rank, rankAll, retrievalConfidence]

/-- C5: the retrieval result carries exactly `min k n` candidates for an index
of `n` articles — all of them when fewer than `k` exist, exactly `k`
otherwise, with no padding; in particular `k = 3` on a one-article index
yields exactly one candidate. -/
theorem queryRetrieval_candidate_count (sim : List ℚ → List ℚ → ℚ) (qv : List ℚ)
    (index : List (Nat × List ℚ)) (k : Nat) :
    (queryRetrieval sim qv index k).candidates.length = min k index.length
    ∧ ∀ e : Nat × List ℚ,
        (queryRetrieval sim qv [e] defaultK).candidates.length = 1 := by
  have hlen : ∀ (scan : List (Nat × ℚ)) (k' : Nat),
      (rank scan k' 0 false).length = min k' scan.length := by
    intro scan k'
    simp only [rank, List.length_map, List.enum_length, List.length_take, if_neg Bool.false_ne_true]
    have hperm := (List.perm_insertionSort candOrder scan.enum).length_eq
    simp only [rankAll]
    rw [hperm, List.enum_length]
  constructor
  · have := hlen (similarityScanQ sim qv index) k
    simpa [queryRetrieval, similarityScanQ] using this
  · intro e
    have := hlen (similarityScanQ sim qv [e]) defaultK
    simpa [queryRetrieval, similarityScanQ, defaultK] using this

/-- C9: in the Part C page, a query that is empty or whitespace-only makes
`queryKB` send no HTTP request and leave the displayed result unchanged; only
the error toast is raised. -/
theorem queryKB_blank_query {α : Type} (send : String → Except String α)
    (query : String) (prevResult : Option α)
    (hblank : query.data.all Char.isWhitespace = true) :
    queryKB send query prevResult = ([], prevResult, [Toast.error "Please enter a query"]) := by
  simp [queryKB, hblank]

theorem queryKB_blank_query_witness :
    queryKB (fun s => Except.ok s.length) "   " (some 7)
      = ([], some 7, [Toast.error "Please enter a query"]) :=
  queryKB_blank_query (fun s => Except.ok s.length) "   " (some 7) (by decide)

/-- A navigation link's class is the active class exactly when its condition
holds (the inactive class keeps the template string's trailing blank). -/
theorem navClass_active_iff (c : Prop) [Decidable c] :
    ("nav-link " ++ (if c then "active" else "")) = "nav-link active" ↔ c := by
  by_cases h : c
  · simp only [if_pos h, iff_true_intro h, iff_true]
    decide
  · simp only [if_neg h, iff_false_intro h, iff_false]
    decide

/-- C10: for every pathname the Navigation component renders the four links in
the fixed order Home, Part A, Part B, Part C; a link carries the active class
exactly when its path equals the pathname; and at most one link is active. -/
theorem navigation_active_unique (pathname : String) :
    (renderNavLinks pathname).map NavLink.label = ["Home", "Part A", "Part B", "Part C"]
    ∧ (∀ l ∈ renderNavLinks pathname, l.className = "nav-link active" ↔ pathname = l.path)
    ∧ (renderNavLinks pathname).countP (fun l => l.className == "nav-link active") ≤ 1 := by
  refine ⟨rfl, ?_, ?_⟩
  · intro l hl
    simp only [renderNavLinks, navLinks, List.map_cons, List.map_nil, List.mem_cons,
      List.not_mem_nil, or_false] at hl
    rcases hl with h | h | h | h <;> subst h <;> exact navClass_active_iff _
  · rcases eq_or_ne pathname "/" with h | h1
    · subst h; decide
    rcases eq_or_ne pathname "/part-a" with h | h2
    · subst h; decide
    rcases eq_or_ne pathname "/part-b" with h | h3
    · subst h; decide
    rcases eq_or_ne pathname "/part-c" with h | h4
    · subst h; decide
    simp only [renderNavLinks, navLinks, List.map_cons, List.map_nil, List.countP_cons,
      List.countP_nil, h1, h2, h3, h4, if_neg]
    decide

theorem lookupEntry_setEntry_self (es : List (Nat × CacheEntry)) (i : Nat) (ent : CacheEntry) :
    lookupEntry (setEntry es i ent) i = some ent := by
  induction es with
  | nil => simp [setEntry, lookupEntry]
  | cons e rest ih =>
      by_cases h : e.1 = i
      · simp [setEntry, h, lookupEntry]
      · simp [setEntry, h, lookupEntry, ih]

theorem lookupEntry_append_single (es : List (Nat × CacheEntry)) (i : Nat) (ent : CacheEntry)
    (h : lookupEntry es i = none) :
    lookupEntry (es ++ [(i, ent)]) i = some ent := by
  induction es with
  | nil => simp [lookupEntry]
  | cons e rest ih =>
      by_cases he : e.1 = i
      · simp [lookupEntry, he] at h
      · simp only [List.cons_append, lookupEntry, if_neg he] at h ⊢
        exact ih h

/-- C6: `upsert` is idempotent on the embedding cache — a second `upsert` of an
article with identical content changes nothing, and in particular makes no
second embedding-provider call — and an `upsert` over an already-cached
article skips the provider call exactly when neither the content nor the
embedding model version changed. -/
theorem upsert_idempotent_cache (embed : String → List ℚ) (mv : Nat)
    (idx : VectorIndex) (a : Article) :
    upsert embed mv (upsert embed mv idx a) a = upsert embed mv idx a
    ∧ ((upsert embed mv idx a).embedCalls = idx.embedCalls
        ↔ ∃ ent, lookupEntry idx.entries a.id = some ent
            ∧ ent.contentHash = a.content ∧ ent.modelVersion = mv) := by
  rcases h : lookupEntry idx.entries a.id with _ | ent
  · have h1 : upsert embed mv idx a
        = ⟨idx.entries ++ [(a.id, ⟨a.content, mv, embed a.content⟩)], idx.embedCalls + 1⟩ := by
      simp [upsert, h]
    have h2 : lookupEntry (idx.entries ++ [(a.id, ⟨a.content, mv, embed a.content⟩)]) a.id
        = some ⟨a.content, mv, embed a.content⟩ :=
      lookupEntry_append_single idx.entries a.id _ h
    constructor
    · rw [h1]
      simp [upsert, h2]
    · rw [h1]
      constructor
      · intro hc
        exact absurd hc (Nat.succ_ne_self _)
      · rintro ⟨ent, hent, -⟩
        cases hent
  · by_cases hm : ent.contentHash = a.content ∧ ent.modelVersion = mv
    · have h1 : upsert embed mv idx a = idx := by
        simp [upsert, h, hm]
      rw [h1]
      exact ⟨h1, ⟨fun _ => ⟨ent, rfl, hm⟩, fun _ => rfl⟩⟩
    · have h1 : upsert embed mv idx a
        = ⟨setEntry idx.entries a.id ⟨a.content, mv, embed a.content⟩, idx.embedCalls + 1⟩ := by
        simp [upsert, h, hm]
      have h2 : lookupEntry (setEntry idx.entries a.id ⟨a.content, mv, embed a.content⟩) a.id
          = some ⟨a.content, mv, embed a.content⟩ :=
        lookupEntry_setEntry_self idx.entries a.id _
      constructor
      · rw [h1]
        simp [upsert, h2]
      · rw [h1]
        constructor
        · intro hc
          exact absurd hc (Nat.succ_ne_self _)
        · rintro ⟨ent2, hent, hc, hv⟩
          injection hent with he
          subst he
          exact absurd ⟨hc, hv⟩ hm

theorem candOrder_le {x y : Nat × Nat × ℚ} (h : candOrder x y) : y.2.2 ≤ x.2.2 := by
  rcases h with h | ⟨e, -⟩
  · exact le_of_lt h
  · exact le_of_eq e.symm

/-- C1: in the default configuration `rank` realises a stable sort — the full
ordering is sorted by similarity descending with ties broken by original scan
position, and is a permutation of the position-annotated scan — the returned
candidates are sorted by similarity descending, and no returned candidate's
similarity is below that of any candidate left out of the top k. -/
theorem rank_sorted_topk (scan : List (Nat × ℚ)) (k : Nat) (relevanceFloor : ℚ) :
    List.Sorted candOrder (rankAll scan)
    ∧ (rankAll scan).Perm scan.enum
    ∧ List.Sorted (fun a b : ℚ => b ≤ a)
        ((rank scan k relevanceFloor false).map ScoredCandidate.similarity)
    ∧ (∀ c ∈ rank scan k relevanceFloor false,
        ∀ p ∈ (rankAll scan).drop k, p.2.2 ≤ c.similarity) := by
  have hsorted : List.Sorted candOrder (rankAll scan) :=
    List.sorted_insertionSort candOrder scan.enum
  have hperm : (rankAll scan).Perm scan.enum :=
    List.perm_insertionSort candOrder scan.enum
  have hmap : (rank scan k relevanceFloor false).map ScoredCandidate.similarity
      = ((rankAll scan).take k).map (fun p => p.2.2) := by
    simp only [rank, if_neg Bool.false_ne_true, List.map_map]
    have hfun : ((rankAll scan).take k).enum.map
        (ScoredCandidate.similarity ∘ fun p => ⟨p.2.2.1, p.2.2.2, p.1 + 1⟩)
        = ((rankAll scan).take k).enum.map ((fun q : Nat × Nat × ℚ => q.2.2) ∘ Prod.snd) := rfl
    rw [hfun, ← List.map_map, List.enum_map_snd]
  refine ⟨hsorted, hperm, ?_, ?_⟩
  · rw [hmap]
    have htake : List.Sorted candOrder ((rankAll scan).take k) :=
      hsorted.sublist (List.take_sublist k (rankAll scan))
    exact List.Pairwise.map _ (fun a b h => candOrder_le h) htake
  · intro c hc p hp
    simp only [rank, if_neg Bool.false_ne_true, List.mem_map] at hc
    rcases hc with ⟨q, hq, rfl⟩
    have hq2 : q.2 ∈ (rankAll scan).take k := by
      have hmem := List.mem_map_of_mem Prod.snd hq
      rwa [List.enum_map_snd] at hmem
    exact candOrder_le (hsorted.rel_of_mem_take_of_mem_drop hq2 hp)
